import Mathlib

/-!
Verification of the dictation app's incremental reconciliation engine and
recording-session machinery, shallowly embedded from the Python sources
(`text_differ.py`, `dictation_chunked.py`, `dictation.py`,
`dictation_daemon.py`, `dictation_simple.py`).

Python strings are modelled as `List Char` (code-point sequences), Python's
arbitrary-precision `int` as `Int`, audio sample values as `ℚ` (for the
float32 amplitude test) or `Int` (for raw capture bytes).
-/

/-- The common-prefix scan of `TextDiffer.calculate_diff` (text_differ.py
lines 27-32): walk both strings left to right, counting while characters
are equal, stopping at the first mismatch or the end of either string. -/
def commonPrefixLen : List Char → List Char → Nat
  | a :: as, b :: bs => if a = b then commonPrefixLen as bs + 1 else 0
  | _, _ => 0

/-- State of a `TextDiffer` instance (text_differ.py lines 7-14):
`last_typed` starts empty, `max_backspaces` is a Python `int`. -/
structure TextDiffer where
  last_typed : List Char
  max_backspaces : Int
deriving DecidableEq

/-- `TextDiffer.__init__`: `last_typed = ""`. -/
def TextDiffer.init (max_backspaces : Int) : TextDiffer :=
  { last_typed := [], max_backspaces := max_backspaces }

/-- `TextDiffer.calculate_diff` (text_differ.py lines 16-41).  The method
only reads `self`, so the returned state is the input state; the second
component is `(backspaces, new_chars)` or the `(None, None)` skip sentinel,
here `none`.  `backspaces = len(self.last_typed) - common_len` is Python
`int` subtraction. -/
def TextDiffer.calculate_diff (d : TextDiffer) (new_text : List Char) :
    TextDiffer × Option (Int × List Char) :=
  let common_len := commonPrefixLen d.last_typed new_text
  let backspaces : Int := (d.last_typed.length : Int) - (common_len : Int)
  let new_chars := new_text.drop common_len
  if backspaces > d.max_backspaces then (d, none)
  else (d, some (backspaces, new_chars))

/-- `TextDiffer.update` (text_differ.py lines 43-49). -/
def TextDiffer.update (d : TextDiffer) (text : List Char) : TextDiffer :=
  { d with last_typed := text }

/-- `TextDiffer.reset` (text_differ.py lines 51-53). -/
def TextDiffer.reset (d : TextDiffer) : TextDiffer :=
  { d with last_typed := [] }

/-- Applying an edit script to previously typed text: delete the last
`backspaces` characters, then append `insertText`. -/
def applyScript (typed : List Char) (backspaces : Int) (insertText : List Char) :
    List Char :=
  typed.take (typed.length - backspaces.toNat) ++ insertText

theorem commonPrefixLen_le_left (a b : List Char) :
    commonPrefixLen a b ≤ a.length := by
  induction a generalizing b with
  | nil => simp [commonPrefixLen]
  | cons x xs ih =>
    cases b with
    | nil => simp [commonPrefixLen]
    | cons y ys =>
      simp only [commonPrefixLen, List.length_cons]
      split
      · exact Nat.succ_le_succ (ih ys)
      · exact Nat.zero_le _

theorem commonPrefixLen_le_right (a b : List Char) :
    commonPrefixLen a b ≤ b.length := by
  induction a generalizing b with
  | nil => simp [commonPrefixLen]
  | cons x xs ih =>
    cases b with
    | nil => simp [commonPrefixLen]
    | cons y ys =>
      simp only [commonPrefixLen, List.length_cons]
      split
      · exact Nat.succ_le_succ (ih ys)
      · exact Nat.zero_le _

theorem commonPrefixLen_take_eq (a b : List Char) :
    a.take (commonPrefixLen a b) = b.take (commonPrefixLen a b) := by
  induction a generalizing b with
  | nil => simp [commonPrefixLen]
  | cons x xs ih =>
    cases b with
    | nil => simp [commonPrefixLen]
    | cons y ys =>
      simp only [commonPrefixLen]
      split
      · next hxy => simp [List.take_succ_cons, hxy, ih ys]
      · simp

theorem commonPrefixLen_self (a : List Char) :
    commonPrefixLen a a = a.length := by
  induction a with
  | nil => simp [commonPrefixLen]
  | cons x xs ih => simp [commonPrefixLen, ih]

/-- C1: for strings `A` (lastTyped) and `B` (hypothesis) with longest common
prefix length `p`, if `maxBackspaces` is at least `len(A) - p` then
`calculate_diff` returns `backspaces = len(A) - p` and
`insertText = B[p:]` (not the skip sentinel), and deleting the last
`len(A) - p` characters of `A` and appending `B[p:]` yields exactly `B`. -/
theorem calculate_diff_reaches_hypothesis (A B : List Char) (m : Int)
    (h : (A.length : Int) - (commonPrefixLen A B : Int) ≤ m) :
    (TextDiffer.mk A m).calculate_diff B =
      (TextDiffer.mk A m,
        some ((A.length : Int) - (commonPrefixLen A B : Int),
          B.drop (commonPrefixLen A B))) ∧
    applyScript A ((A.length : Int) - (commonPrefixLen A B : Int))
        (B.drop (commonPrefixLen A B)) = B := by
  have hp := commonPrefixLen_le_left A B
  constructor
  · simp only [TextDiffer.calculate_diff]
    rw [if_neg (not_lt.mpr h)]
  · have htoNat : ((A.length : Int) - (commonPrefixLen A B : Int)).toNat =
        A.length - commonPrefixLen A B := by omega
    have hlen : A.length - (A.length - commonPrefixLen A B) =
        commonPrefixLen A B := by omega
    rw [applyScript, htoNat, hlen, commonPrefixLen_take_eq A B,
      List.take_append_drop]

/-- C1 witness: `lastTyped = "I want to go"`, hypothesis `"I wanted to go"`,
`maxBackspaces = 20`; common prefix `"I want"` has length 6,
so 6 backspaces and insert `"ed to go"`, reaching the hypothesis. -/
theorem calculate_diff_reaches_hypothesis_witness :
    (TextDiffer.mk "I want to go".toList 20).calculate_diff "I wanted to go".toList =
      (TextDiffer.mk "I want to go".toList 20,
        some (("I want to go".toList.length : Int) -
            (commonPrefixLen "I want to go".toList "I wanted to go".toList : Int),
          "I wanted to go".toList.drop
            (commonPrefixLen "I want to go".toList "I wanted to go".toList))) ∧
    applyScript "I want to go".toList
        (("I want to go".toList.length : Int) -
          (commonPrefixLen "I want to go".toList "I wanted to go".toList : Int))
        ("I wanted to go".toList.drop
          (commonPrefixLen "I want to go".toList "I wanted to go".toList)) =
      "I wanted to go".toList :=
  calculate_diff_reaches_hypothesis "I want to go".toList "I wanted to go".toList 20
    (by decide)

/-- C4: the call returns the skip sentinel exactly when
`len(A) - commonPrefixLen(A,B)` exceeds `maxBackspaces`, and the tracked
`last_typed` state is never changed by `calculate_diff`. -/
theorem calculate_diff_skip_iff (d : TextDiffer) (B : List Char) :
    (d.calculate_diff B).1 = d ∧
    ((d.calculate_diff B).2 = none ↔
      (d.last_typed.length : Int) - (commonPrefixLen d.last_typed B : Int) >
        d.max_backspaces) := by
  constructor
  · simp only [TextDiffer.calculate_diff]
    split <;> rfl
  · simp only [TextDiffer.calculate_diff]
    split
    · next hgt => simpa using hgt
    · next hle => simpa using hle

/-- C7 counterexample: the claim quantifies over every `maxBackspaces`
value, but `max_backspaces` is a Python `int` and may be negative; with
`maxBackspaces = -1` and `A = "a"`, `backspaces = 0 > -1` so
`calculate_diff` returns the skip sentinel, not `(0, "")`. -/
theorem calculate_diff_self_neg_max_skips :
    ¬ (((TextDiffer.mk ['a'] (-1)).calculate_diff ['a']).2 =
        some ((0 : Int), ([] : List Char))) := by
  decide

/-- C7 amended: for every string `A` and every nonnegative `maxBackspaces`,
`calculate_diff(A, A, maxBackspaces)` returns `backspaces = 0` and an empty
insert — a true no-op, never the skip sentinel. -/
theorem calculate_diff_self_noop (A : List Char) (m : Int) (hm : 0 ≤ m) :
    (TextDiffer.mk A m).calculate_diff A =
      (TextDiffer.mk A m, some ((0 : Int), ([] : List Char))) := by
  simp only [TextDiffer.calculate_diff, commonPrefixLen_self]
  rw [if_neg (by omega)]
  simp

/-- C7 amended witness: `calculate_diff("Hello", "Hello", 20)` is the no-op
`(0, "")`. -/
theorem calculate_diff_self_noop_witness :
    (TextDiffer.mk "Hello".toList 20).calculate_diff "Hello".toList =
      (TextDiffer.mk "Hello".toList 20, some ((0 : Int), ([] : List Char))) :=
  calculate_diff_self_noop "Hello".toList 20 (by decide)

/-- C9: whenever `calculate_diff` returns a non-skip result, the backspace
count satisfies `0 ≤ backspaces ≤ len(last_typed)` and
`backspaces + commonPrefixLen = len(last_typed)` — the script never asks
the sink to delete more characters than are tracked as typed. -/
theorem calculate_diff_backspaces_bounded (d : TextDiffer) (B : List Char)
    (bs : Int) (ins : List Char)
    (h : (d.calculate_diff B).2 = some (bs, ins)) :
    0 ≤ bs ∧ bs ≤ (d.last_typed.length : Int) ∧
      bs + (commonPrefixLen d.last_typed B : Int) = (d.last_typed.length : Int) := by
  have hp := commonPrefixLen_le_left d.last_typed B
  simp only [TextDiffer.calculate_diff] at h
  split at h
  · simp at h
  · simp only [Prod.mk.injEq, Option.some.injEq] at h
    obtain ⟨hbs, -⟩ := h.2
    omega

/-- C9 witness: with `last_typed = "ab"`, hypothesis `"ac"`, the result is
`(1, "c")` and the bounds hold. -/
theorem calculate_diff_backspaces_bounded_witness :
    0 ≤ (1 : Int) ∧ (1 : Int) ≤ ((['a', 'b'] : List Char).length : Int) ∧
      (1 : Int) + (commonPrefixLen ['a', 'b'] ['a', 'c'] : Int) =
        ((['a', 'b'] : List Char).length : Int) :=
  calculate_diff_backspaces_bounded (TextDiffer.mk ['a', 'b'] 20) ['a', 'c'] 1 ['c']
    (by decide)

/-- Python `str.strip()` on the characters the sources can produce:
drop ASCII whitespace from both ends. -/
def isPySpace (c : Char) : Bool :=
  c = ' ' ∨ c = '\t' ∨ c = '\n' ∨ c = '\r'

/-- `text.strip()`. -/
def pyStrip (s : List Char) : List Char :=
  ((s.dropWhile isPySpace).reverse.dropWhile isPySpace).reverse

/-- `" ".join(texts)`. -/
def spaceJoin (texts : List (List Char)) : List Char :=
  List.intercalate [' '] texts

/-- `np.abs` on one sample. -/
def ratAbs (x : ℚ) : ℚ :=
  if x < 0 then -x else x

/-- State of a `ChunkedDictation` instance as far as `transcribe_buffer`
touches it (dictation_chunked.py lines 22-28): the accumulated audio
frames (each a list of float32 samples, modelled as `ℚ`) and the
`TextDiffer`. -/
structure ChunkedState where
  audio_buffer : List (List ℚ)
  differ : TextDiffer

/-- Observable effects of one `transcribe_buffer` call: the audio handed to
the speech engine (the emitted Segment), the backspace count passed to
`type_backspaces`, the text passed to `type_text`, and whether
`differ.update` ran. -/
structure StepTrace where
  segment : Option (List ℚ)
  deleteIssued : Option Int
  insertIssued : Option (List Char)
  committed : Bool
deriving DecidableEq

/-- The no-effect trace (for the early returns). -/
def StepTrace.noEffect : StepTrace :=
  { segment := none, deleteIssued := none, insertIssued := none, committed := false }

/-- `ChunkedDictation.transcribe_buffer` (dictation_chunked.py lines 63-101;
`DictationDaemon.transcribe_buffer` lines 65-92 and
`SimpleDictation.transcribe_buffer` lines 53-88 have the same structure).
`engine` models `self.model.transcribe` returning the segment texts, which
the code joins with spaces and strips.  The quiet test is
`np.abs(audio).max() < 0.01`; the threshold `0.01` is written
`mkRat 1 100`.  `deleteOk` and `insertOk` are the success of
`type_backspaces` and `type_text`; the source discards both (line 96
ignores the returned bool, line 99 likewise), so neither affects control
flow.  `differ.update(text)` runs only inside `if new_text:`
(lines 98-100). -/
def ChunkedState.transcribe_buffer (st : ChunkedState)
    (engine : List ℚ → List (List Char)) (deleteOk insertOk : Bool) :
    ChunkedState × StepTrace :=
  if st.audio_buffer = [] then (st, StepTrace.noEffect)
  else
    let audio := st.audio_buffer.flatten
    if audio.all (fun x => ratAbs x < mkRat 1 100) then (st, StepTrace.noEffect)
    else
      let text := pyStrip (spaceJoin (engine audio))
      if text = [] then (st, { StepTrace.noEffect with segment := some audio })
      else
        match (st.differ.calculate_diff text).2 with
        | none =>
            (st, { StepTrace.noEffect with segment := some audio })
        | some (backspaces, new_chars) =>
            let deleteIssued := if backspaces > 0 then some backspaces else none
            if new_chars ≠ [] then
              ({ st with differ := st.differ.update text },
                { segment := some audio, deleteIssued := deleteIssued,
                  insertIssued := some new_chars, committed := true })
            else
              (st,
                { segment := some audio, deleteIssued := deleteIssued,
                  insertIssued := none, committed := false })

/-- C2: the code contradicts the commit-on-full-success contract when the
edit script is deletion-only.  With `last_typed = "ab"`, a loud buffer and
a hypothesis of `"a"`, the script is `(1, "")` (not skip), both sink calls
succeed, the backspace is issued — yet `differ.update` never runs and
`last_typed` stays `"ab"` instead of becoming `"a"`, desynchronising the
tracker from the screen. -/
theorem transcribe_buffer_deletion_only_not_committed :
    (ChunkedState.transcribe_buffer
        { audio_buffer := [[1]], differ := TextDiffer.mk ['a', 'b'] 20 }
        (fun _ => [['a']]) true true).2.deleteIssued = some 1 ∧
    (ChunkedState.transcribe_buffer
        { audio_buffer := [[1]], differ := TextDiffer.mk ['a', 'b'] 20 }
        (fun _ => [['a']]) true true).2.committed = false ∧
    (ChunkedState.transcribe_buffer
        { audio_buffer := [[1]], differ := TextDiffer.mk ['a', 'b'] 20 }
        (fun _ => [['a']]) true true).1.differ.last_typed = ['a', 'b'] := by
  decide

/-- C3: sink failures never abort the step.  With `last_typed = "ab"` and
hypothesis `"ac"`, even when `type_backspaces` fails (`deleteOk = false`)
the insert of `"c"` is still issued and `differ.update` still commits; and
even when `type_text` fails (`insertOk = false`) the commit still happens —
the source discards both success values. -/
theorem transcribe_buffer_ignores_sink_failure :
    ((ChunkedState.transcribe_buffer
        { audio_buffer := [[1]], differ := TextDiffer.mk ['a', 'b'] 20 }
        (fun _ => [['a', 'c']]) false true).2.insertIssued = some ['c'] ∧
      (ChunkedState.transcribe_buffer
        { audio_buffer := [[1]], differ := TextDiffer.mk ['a', 'b'] 20 }
        (fun _ => [['a', 'c']]) false true).2.committed = true) ∧
    (ChunkedState.transcribe_buffer
        { audio_buffer := [[1]], differ := TextDiffer.mk ['a', 'b'] 20 }
        (fun _ => [['a', 'c']]) true false).2.committed = true := by
  decide

/-- C6 counterexample: one interval tick on a loud one-frame buffer emits
the whole buffer as a segment, but `audio_buffer` is NOT cleared — no line
of `transcribe_buffer` or `transcription_loop` empties it, so the next tick
re-transcribes the same audio. -/
theorem transcribe_buffer_does_not_clear :
    (ChunkedState.transcribe_buffer
        { audio_buffer := [[1]], differ := TextDiffer.init 20 }
        (fun _ => [['h', 'i']]) true true).2.segment = some [1] ∧
    ¬ ((ChunkedState.transcribe_buffer
        { audio_buffer := [[1]], differ := TextDiffer.init 20 }
        (fun _ => [['h', 'i']]) true true).1.audio_buffer = []) := by
  decide

/-- C6 amended: at every tick the entire current buffer is handed to the
engine as one Segment but the buffer is retained, not cleared; hence
consecutive Segments are cumulative, not disjoint — the later one is the
earlier one followed by the frames captured in between. -/
theorem transcribe_buffer_segments_cumulative (st : ChunkedState)
    (engine : List ℚ → List (List Char)) (deleteOk insertOk : Bool)
    (more : List (List ℚ)) :
    (st.transcribe_buffer engine deleteOk insertOk).1.audio_buffer =
      st.audio_buffer ∧
    (∀ s, (st.transcribe_buffer engine deleteOk insertOk).2.segment = some s →
      s = st.audio_buffer.flatten) ∧
    (∀ s s', (st.transcribe_buffer engine deleteOk insertOk).2.segment = some s →
      (ChunkedState.transcribe_buffer
          { st with audio_buffer := st.audio_buffer ++ more }
          engine deleteOk insertOk).2.segment = some s' →
      s' = s ++ more.flatten) := by
  have hbuf : ∀ (t : ChunkedState) (e : List ℚ → List (List Char)) (d i : Bool),
      (t.transcribe_buffer e d i).1.audio_buffer = t.audio_buffer := by
    intro t e d i
    simp only [ChunkedState.transcribe_buffer]
    split
    · rfl
    · split
      · rfl
      · split
        · rfl
        · split
          · rfl
          · split
            · rfl
            · rfl
  have hseg : ∀ (t : ChunkedState) (e : List ℚ → List (List Char)) (d i : Bool) (s : List ℚ),
      (t.transcribe_buffer e d i).2.segment = some s → s = t.audio_buffer.flatten := by
    intro t e d i s hs
    simp only [ChunkedState.transcribe_buffer] at hs
    split at hs
    · simp [StepTrace.noEffect] at hs
    · split at hs
      · simp [StepTrace.noEffect] at hs
      · split at hs
        · simp only [StepTrace.noEffect, Option.some.injEq] at hs
          exact hs.symm
        · split at hs
          · simp only [StepTrace.noEffect, Option.some.injEq] at hs
            exact hs.symm
          · split at hs
            · simp only [Option.some.injEq] at hs
              exact hs.symm
            · simp only [Option.some.injEq] at hs
              exact hs.symm
  refine ⟨hbuf st engine deleteOk insertOk, fun s => hseg st engine deleteOk insertOk s, ?_⟩
  intro s s' hs hs'
  have h1 := hseg st engine deleteOk insertOk s hs
  have h2 := hseg { st with audio_buffer := st.audio_buffer ++ more }
    engine deleteOk insertOk s' hs'
  simp only [List.flatten_append] at h2
  rw [h1] at hs ⊢
  rw [h2]

/-- C6 amended witness: with a loud one-frame buffer and one more frame
captured before the next tick, the first tick emits `[1]`, the second emits
`[1, 2]` — the earlier segment followed by the new frame. -/
theorem transcribe_buffer_segments_cumulative_witness :
    (ChunkedState.transcribe_buffer
        { audio_buffer := [[1]], differ := TextDiffer.init 20 }
        (fun _ => [['h', 'i']]) true true).1.audio_buffer = [[1]] ∧
    (∀ s, (ChunkedState.transcribe_buffer
        { audio_buffer := [[1]], differ := TextDiffer.init 20 }
        (fun _ => [['h', 'i']]) true true).2.segment = some s →
      s = ([[1]] : List (List ℚ)).flatten) ∧
    (∀ s s', (ChunkedState.transcribe_buffer
        { audio_buffer := [[1]], differ := TextDiffer.init 20 }
        (fun _ => [['h', 'i']]) true true).2.segment = some s →
      (ChunkedState.transcribe_buffer
          { audio_buffer := [[1]] ++ [[2]], differ := TextDiffer.init 20 }
          (fun _ => [['h', 'i']]) true true).2.segment = some s' →
      s' = s ++ ([[2]] : List (List ℚ)).flatten) :=
  transcribe_buffer_segments_cumulative
    { audio_buffer := [[1]], differ := TextDiffer.init 20 }
    (fun _ => [['h', 'i']]) true true [[2]]

/-- Operations issued against the keystroke sink. -/
inductive SinkOp where
  | ins (text : List Char)
  | del (count : Int)
deriving DecidableEq

/-- Whether a sink operation is an insert. -/
def SinkOp.isIns : SinkOp → Bool
  | .ins _ => true
  | .del _ => false

/-- `DictationApp.transcribe_audio` (dictation.py lines 105-116): the engine
produces segment texts; the code strips each, joins them with spaces, and
strips the result. -/
def transcribe_audio (engine : List Int → List (List Char)) (audio : List Int) :
    List Char :=
  pyStrip (spaceJoin ((engine audio).map pyStrip))

/-- The local state of `DictationApp._record_loop` (dictation.py
lines 150-195): the accumulated frames (raw capture bytes, modelled as
`List Int`), the trailing-silence counter, and whether speech has been
observed in the current utterance. -/
structure RecState where
  audio_buffer : List (List Int)
  silence_chunks : Nat
  speech_detected : Bool
deriving DecidableEq

/-- `_record_loop`'s initial locals (lines 153-155). -/
def RecState.start : RecState :=
  { audio_buffer := [], silence_chunks := 0, speech_detected := false }

/-- `silence_chunks_threshold = int(SILENCE_THRESHOLD * chunks_per_second)`
with `SILENCE_THRESHOLD = 1.5` and `chunks_per_second = 1000 // 30 = 33`
(dictation.py lines 29, 156-157), so `int(49.5) = 49`. -/
def silence_chunks_threshold : Nat := 49

/-- One iteration of `DictationApp._record_loop` (dictation.py
lines 159-190) on a single captured chunk, while `self.recording` is true.
Returns the new locals, the sink operations issued, and the audio segments
handed to `transcribe_audio`.  A speech chunk is buffered and resets the
silence counter; after speech, a silence chunk is buffered and counted, and
on crossing the threshold the joined buffer (nonempty — the chunk was just
appended) is transcribed, nonempty text is typed as `text + " "`, and the
locals reset.  Chunks before the first speech chunk are discarded. -/
def record_step (vad : List Int → Bool) (engine : List Int → List (List Char))
    (θ : Nat) (st : RecState) (chunk : List Int) :
    RecState × List SinkOp × List (List Int) :=
  if vad chunk then
    ({ audio_buffer := st.audio_buffer ++ [chunk], silence_chunks := 0,
        speech_detected := true }, [], [])
  else if st.speech_detected then
    let buffer := st.audio_buffer ++ [chunk]
    let silence := st.silence_chunks + 1
    if θ ≤ silence then
      let audio := buffer.flatten
      let text := transcribe_audio engine audio
      let ops := if text ≠ [] then [SinkOp.ins (text ++ [' '])] else []
      ({ audio_buffer := [], silence_chunks := 0, speech_detected := false },
        ops, [audio])
    else
      ({ audio_buffer := buffer, silence_chunks := silence,
          speech_detected := true }, [], [])
  else (st, [], [])

/-- Result of running `_record_loop` over the chunks captured while
recording: final locals, all sink operations in order, all segments
transcribed in order. -/
structure LoopResult where
  final : RecState
  ops : List SinkOp
  segments : List (List Int)
deriving DecidableEq

/-- `DictationApp._record_loop` over the finite sequence of chunks read
while `self.recording` stayed true.  When `recording` flips false the
`while` loop simply exits (line 159) and the `finally:` block only shuts
the audio stream (lines 194-195); `stop_recording` (lines 214-227) only
joins the thread — nothing transcribes the remaining `audio_buffer`. -/
def record_loop (vad : List Int → Bool) (engine : List Int → List (List Char))
    (θ : Nat) : RecState → List (List Int) → LoopResult
  | st, [] => { final := st, ops := [], segments := [] }
  | st, chunk :: rest =>
    let s := record_step vad engine θ st chunk
    let r := record_loop vad engine θ s.1 rest
    { final := r.final, ops := s.2.1 ++ r.ops, segments := s.2.2 ++ r.segments }

/-- The single sink operation the silence variant derives from one
transcribed segment: type the text plus a trailing space when the text is
nonempty, nothing otherwise. -/
def insOfSegment (engine : List Int → List (List Char)) (audio : List Int) :
    Option SinkOp :=
  if transcribe_audio engine audio = [] then none
  else some (SinkOp.ins (transcribe_audio engine audio ++ [' ']))

theorem record_step_ops_eq (vad : List Int → Bool)
    (engine : List Int → List (List Char)) (θ : Nat) (st : RecState)
    (chunk : List Int) :
    (record_step vad engine θ st chunk).2.1 =
      (record_step vad engine θ st chunk).2.2.filterMap (insOfSegment engine) := by
  simp only [record_step]
  split
  · rfl
  · split
    · split
      · by_cases h :
          transcribe_audio engine (st.audio_buffer.flatten ++ chunk) = [] <;>
          simp [insOfSegment, h]
      · rfl
    · rfl

theorem record_loop_ops_eq (vad : List Int → Bool)
    (engine : List Int → List (List Char)) (θ : Nat)
    (frames : List (List Int)) : ∀ st : RecState,
    (record_loop vad engine θ st frames).ops =
      ((record_loop vad engine θ st frames).segments).filterMap
        (insOfSegment engine) := by
  induction frames with
  | nil => intro st; rfl
  | cons c cs ih =>
    intro st
    simp only [record_loop]
    rw [List.filterMap_append, ← record_step_ops_eq, ih]

/-- C10: the silence-triggered variant is append-only: its sink operations
are exactly one insert of `text ++ " "` for every transcribed segment with
nonempty text, in order, and every operation is an insert — no backspace is
ever issued (the `TextDiffer` is never consulted; dictation.py does not
even import it). -/
theorem silence_variant_append_only (vad : List Int → Bool)
    (engine : List Int → List (List Char)) (θ : Nat) (st : RecState)
    (frames : List (List Int)) :
    (record_loop vad engine θ st frames).ops =
      ((record_loop vad engine θ st frames).segments).filterMap
        (insOfSegment engine) ∧
    ((record_loop vad engine θ st frames).ops.all SinkOp.isIns) = true := by
  refine ⟨record_loop_ops_eq vad engine θ frames st, ?_⟩
  rw [record_loop_ops_eq vad engine θ frames st]
  rw [List.all_eq_true]
  intro op hop
  obtain ⟨a, -, hfa⟩ := List.mem_filterMap.mp hop
  rw [insOfSegment] at hfa
  split at hfa
  · exact absurd hfa (by simp)
  · obtain rfl := Option.some.injEq .. ▸ hfa.symm
    rfl

/-- C5: the silence-triggered variant drops trailing speech.  One speech
chunk is captured and recording then stops: the loop exits with the chunk
still in `audio_buffer`, no segment was ever transcribed and no text typed,
and neither the loop's exit path nor `stop_recording` flushes the buffer —
contradicting the requirement that both policies flush the remaining
buffer as a final Segment on stop. -/
theorem silence_variant_drops_trailing_buffer :
    (record_loop (fun _ => true) (fun _ => [['h', 'i']])
        silence_chunks_threshold RecState.start [[5]]).segments = [] ∧
    (record_loop (fun _ => true) (fun _ => [['h', 'i']])
        silence_chunks_threshold RecState.start [[5]]).ops = [] ∧
    (record_loop (fun _ => true) (fun _ => [['h', 'i']])
        silence_chunks_threshold RecState.start [[5]]).final.audio_buffer =
      [[5]] := by
  decide

/-- One `DictationApp.toggle_recording` call (dictation.py lines 229-234)
splits into two atomic events: `read t` is thread `t`'s unlocked read of
`self.recording` choosing the branch (line 231), and `body t` is the
lock-protected check-and-set at the top of the chosen method —
`start_recording` lines 120-124 (`if self.recording: return` else set it
true) or `stop_recording` lines 216-219 (`if not self.recording: return`
else set it false). -/
inductive ToggleEvent where
  | read (t : Nat)
  | body (t : Nat)

/-- Shared session flag `recording`, each thread's branch decision (the
value it read), and a count of Idle-to-Recording transitions performed. -/
structure SessionRun where
  recording : Bool
  observed : Nat → Option Bool
  starts : Nat

/-- Interleaving semantics of concurrent `toggle_recording` calls: a read
stores the current flag for its thread; a body runs the locked
check-and-set of `start_recording` (observed Idle) or `stop_recording`
(observed Recording).  Capture-stream open is assumed to succeed, as the
claim concerns toggle transitions. -/
def toggle_step (s : SessionRun) : ToggleEvent → SessionRun
  | .read t =>
      { s with observed := fun u => if u = t then some s.recording else s.observed u }
  | .body t =>
      match s.observed t with
      | none => s
      | some true => if s.recording then { s with recording := false } else s
      | some false =>
          if s.recording then s
          else { s with recording := true, starts := s.starts + 1 }

/-- Run a schedule of toggle events. -/
def toggle_run (evs : List ToggleEvent) (s : SessionRun) : SessionRun :=
  evs.foldl toggle_step s

/-- The Idle session: not recording, no thread has read yet. -/
def idleSession : SessionRun :=
  { recording := false, observed := fun _ => none, starts := 0 }

theorem toggle_run_reads (rs : List Nat) : ∀ s : SessionRun,
    s.recording = false →
    (toggle_run (rs.map ToggleEvent.read) s).recording = false ∧
    (toggle_run (rs.map ToggleEvent.read) s).starts = s.starts ∧
    ∀ t, (toggle_run (rs.map ToggleEvent.read) s).observed t =
      if t ∈ rs then some false else s.observed t := by
  induction rs with
  | nil =>
    intro s hs
    exact ⟨hs, rfl, fun t => by simp [toggle_run]⟩
  | cons a as ih =>
    intro s hs
    have hstep : toggle_run ((a :: as).map ToggleEvent.read) s =
        toggle_run (as.map ToggleEvent.read) (toggle_step s (.read a)) := rfl
    have hrec : (toggle_step s (.read a)).recording = false := hs
    obtain ⟨h1, h2, h3⟩ := ih (toggle_step s (.read a)) hrec
    refine ⟨hstep ▸ h1, hstep ▸ h2, fun t => ?_⟩
    rw [hstep, h3 t]
    by_cases hmem : t ∈ as
    · simp [hmem, List.mem_cons]
    · by_cases hta : t = a
      · subst hta
        simp [hmem, toggle_step, hs]
      · simp [hmem, hta, toggle_step]

theorem toggle_run_bodies_recorded (bs : List Nat) : ∀ s : SessionRun,
    s.recording = true → (∀ t ∈ bs, s.observed t = some false) →
    (toggle_run (bs.map ToggleEvent.body) s).recording = true ∧
    (toggle_run (bs.map ToggleEvent.body) s).starts = s.starts := by
  induction bs with
  | nil => intro s hs _; exact ⟨hs, rfl⟩
  | cons b bs' ih =>
    intro s hs hobs
    have hb : s.observed b = some false := hobs b (List.mem_cons_self b bs')
    have hstep : toggle_step s (.body b) = s := by
      simp only [toggle_step, hb, hs, if_true]
    have : toggle_run ((b :: bs').map ToggleEvent.body) s =
        toggle_run (bs'.map ToggleEvent.body) s := by
      show toggle_run (bs'.map ToggleEvent.body) (toggle_step s (.body b)) = _
      rw [hstep]
    rw [this]
    exact ih s hs (fun t ht => hobs t (List.mem_cons_of_mem b ht))

/-- C8: N concurrent `toggle()` calls against an Idle session — all N
threads read the Idle flag before any lock-protected body runs, then the
bodies execute serialized by the lock in an arbitrary order (`bs`, each
body belonging to a thread that read) — produce exactly one
Idle-to-Recording transition, and leave the session consistently
Recording, no matter how many callers there are or how the bodies are
interleaved. -/
theorem toggle_concurrent_burst_single_start (rs bs : List Nat)
    (hne : bs ≠ []) (hsub : ∀ t ∈ bs, t ∈ rs) :
    (toggle_run (rs.map ToggleEvent.read ++ bs.map ToggleEvent.body)
        idleSession).starts = 1 ∧
    (toggle_run (rs.map ToggleEvent.read ++ bs.map ToggleEvent.body)
        idleSession).recording = true := by
  have happ : toggle_run (rs.map ToggleEvent.read ++ bs.map ToggleEvent.body)
      idleSession =
      toggle_run (bs.map ToggleEvent.body)
        (toggle_run (rs.map ToggleEvent.read) idleSession) := by
    simp [toggle_run, List.foldl_append]
  obtain ⟨hrec, hstarts, hobs⟩ :=
    toggle_run_reads rs idleSession rfl
  obtain ⟨b, bs', rfl⟩ : ∃ b bs', bs = b :: bs' := by
    cases bs with
    | nil => exact absurd rfl hne
    | cons b bs' => exact ⟨b, bs', rfl⟩
  set s1 := toggle_run (rs.map ToggleEvent.read) idleSession with hs1
  have hobs_b : s1.observed b = some false := by
    rw [hobs b, if_pos (hsub b (List.mem_cons_self b bs'))]
  have hstep : toggle_step s1 (.body b) =
      { s1 with recording := true, starts := s1.starts + 1 } := by
    simp [toggle_step, hobs_b, hrec]
  have hrun : toggle_run ((b :: bs').map ToggleEvent.body) s1 =
      toggle_run (bs'.map ToggleEvent.body)
        { s1 with recording := true, starts := s1.starts + 1 } := by
    show toggle_run (bs'.map ToggleEvent.body) (toggle_step s1 (.body b)) = _
    rw [hstep]
  have hrest := toggle_run_bodies_recorded bs'
      { s1 with recording := true, starts := s1.starts + 1 } rfl
      (fun t ht => by
        show s1.observed t = some false
        rw [hobs t, if_pos (hsub t (List.mem_cons_of_mem b ht))])
  rw [happ, hrun]
  refine ⟨?_, hrest.1⟩
  rw [hrest.2]
  show s1.starts + 1 = 1
  rw [hstarts]
  rfl

/-- C8 witness: three threads read the Idle flag, then their toggle bodies
run in the order 2, 0, 1 — exactly one Idle-to-Recording transition, and
the session ends Recording. -/
theorem toggle_concurrent_burst_single_start_witness :
    (toggle_run ([0, 1, 2].map ToggleEvent.read ++
        [2, 0, 1].map ToggleEvent.body) idleSession).starts = 1 ∧
    (toggle_run ([0, 1, 2].map ToggleEvent.read ++
        [2, 0, 1].map ToggleEvent.body) idleSession).recording = true :=
  toggle_concurrent_burst_single_start [0, 1, 2] [2, 0, 1] (by decide)
    (by decide)
